import Mathlib

/-!
Shallow embedding of src/src/bluetooth/DBusHciInterface.cpp.

External DBus/BlueZ interaction is modelled by explicit parameters
(the live powered state observed at each poll, the object registry
contents, per-path device lookup results, per-path signal strength
queries) and by a trace of service events emitted by each operation.
Definitions follow the C++ control flow of the source file.
-/

/-- CHANGE_POWER_ATTEMPTS from the source: bounded retry attempt count. -/
def CHANGE_POWER_ATTEMPTS : Nat := 5

/-- CHANGE_POWER_DELAY from the source, in milliseconds. -/
def CHANGE_POWER_DELAY : Nat := 200

/-- DBusHciInterface::createAdapterPath. -/
def createAdapterPath (name : String) : String :=
  "/org/bluez/" ++ name

/-- MACAddress::toString with underscore separator: the colon-form address
with each colon replaced by an underscore. -/
def macToUnderscore (addr : String) : String :=
  addr.map (fun c => if c = ':' then '_' else c)

/-- DBusHciInterface::createDevicePath. -/
def createDevicePath (name : String) (addr : String) : String :=
  "/org/bluez/" ++ name ++ "/dev_" ++ macToUnderscore addr

/-- Whether the character list hay starts with the character list needle. -/
def startsWithList : List Char → List Char → Bool
  | [], _ => true
  | _ :: _, [] => false
  | c :: cs, h :: hs => c == h && startsWithList cs hs

/-- Whether needle occurs as a contiguous substring of hay
(the semantics of std::string::find returning a position). -/
def containsSubstrList : List Char → List Char → Bool
  | [], needle => needle.isEmpty
  | hay@(_ :: hs), needle => startsWithList needle hay || containsSubstrList hs needle

/-- String form of the substring test used by the lescan path filter. -/
def containsSubstr (hay needle : String) : Bool :=
  containsSubstrList hay.toList needle.toList

/-- Modelled from the spec: the object path lies under this adapter
path prefix, i.e. starts with the adapter path followed by a slash.
Used only to compare the spec wording against the source filter. -/
def underAdapterPath (name path : String) : Bool :=
  startsWithList (createAdapterPath name ++ "/").toList path.toList

/-- Observable events of one operation against the external service and
the condition variables of DBusHciInterface. -/
inductive HciEvent where
  | retrieveAdapter (path : String) (ok : Bool)
  | retrieveDevice (path : String) (ok : Bool)
  | getPowered (path : String) (value : Bool)
  | setPowered (path : String) (value : Bool)
  | getDiscovering (value : Bool)
  | setDiscoveryFilter (transport : String)
  | startDiscoveryCall
  | stopDiscoveryCall
  | broadcastWait
  | discoveryWait (timeoutUs : Int)
  | powerSleep (ms : Nat)
  | signalConnect
  | getConnected (path : String) (value : Bool)
  | setDefaultTimeout (ms : Int)
  | connectCall
  | mainLoopQuit
  | threadJoin
  deriving DecidableEq

/-- Whether an event is a live power-state poll. -/
def isPollEvent : HciEvent → Bool
  | HciEvent.getPowered _ _ => true
  | _ => false

/-- Number of live power-state polls in a trace. -/
def countPolls (tr : List HciEvent) : Nat :=
  tr.countP isPollEvent

/-- Discovering state of the adapter after a trace of events, starting
from an initial discovering state. -/
def discoveringAfter (d : Bool) : List HciEvent → Bool
  | [] => d
  | HciEvent.startDiscoveryCall :: rest => discoveringAfter true rest
  | HciEvent.stopDiscoveryCall :: rest => discoveringAfter false rest
  | _ :: rest => discoveringAfter d rest

/-- Properties of one org.bluez.Device1 object: colon-form address and the
optional display name (null name becomes the sentinel below). -/
structure DeviceProps where
  address : String
  name : Option String
  deriving DecidableEq

/-- One object of the DBus object registry: its object path and the list
of interfaces it exposes. -/
structure BluezObject where
  path : String
  interfaces : List String
  deriving DecidableEq

/-- Whether the address map already holds the key (std::map lookup). -/
def mapContainsKey (m : List (String × String)) (k : String) : Bool :=
  m.any (fun p => p.1 == k)

/-- std::map::emplace on the address map: inserts only when the key is
absent, otherwise leaves the map unchanged. -/
def emplace (m : List (String × String)) (k v : String) : List (String × String) :=
  if mapContainsKey m k then m else m ++ [(k, v)]

/-- The PathFilter lambda of DBusHciInterface::processKnownDevices:
returns true (meaning skip) exactly when the path does not contain
the substring "/" ++ name. -/
def lescanPathFilter (name path : String) : Bool :=
  if containsSubstr path ("/" ++ name) = false then true else false

/-- DBusHciInterface::retrievePathsOfBluezObjects: keep the paths of
registry objects not rejected by the path filter that expose the
requested interface. -/
def retrievePathsOfBluezObjects
    (objects : List BluezObject) (pf : String → Bool)
    (objectFilter : String) : List String :=
  objects.filterMap (fun o =>
    if pf o.path then none
    else if o.interfaces.contains objectFilter then some o.path
    else none)

/-- DBusHciInterface::processKnownDevices: enumerate known device objects
of this adapter and record address to name; a per-device lookup failure
(lookupDevice returning none, the thrown-and-caught case of the source)
skips that device and continues. -/
def processKnownDevices
    (name : String) (objects : List BluezObject)
    (lookupDevice : String → Option DeviceProps)
    (devices : List (String × String)) : List (String × String) :=
  (retrievePathsOfBluezObjects objects (lescanPathFilter name) "org.bluez.Device1").foldl
    (fun acc p =>
      match lookupDevice p with
      | none => acc
      | some d => emplace acc d.address (d.name.getD "unknown"))
    devices

/-- DBusHciInterface::onDBusObjectAdded: ignore objects without the
device interface; a device lookup failure (none, the thrown-and-caught
case of the source) leaves the map unchanged; otherwise record the
address with name or the sentinel. -/
def onDBusObjectAdded
    (hasDeviceInterface : Bool) (lookupResult : Option DeviceProps)
    (found : List (String × String)) : List (String × String) :=
  if hasDeviceInterface = false then found
  else
    match lookupResult with
    | none => found
    | some d => emplace found d.address (d.name.getD "unknown")

/-- The accumulation map of one lescan session: the pre-scan enumeration
seed followed by one onDBusObjectAdded step per announced object
(interface presence and lookup result of each notification). -/
def lescanAccum
    (name : String) (objects : List BluezObject)
    (lookupDevice : String → Option DeviceProps)
    (announced : List (Bool × Option DeviceProps)) : List (String × String) :=
  announced.foldl (fun acc a => onDBusObjectAdded a.1 a.2 acc)
    (processKnownDevices name objects lookupDevice [])

/-- The post-scan filtering loop of DBusHciInterface::lescan: for each
accumulated entry, retrieve the device and query its signal strength;
a lookup failure is not caught and aborts with the error; entries with
nonzero signal strength are emplaced into the result. -/
def lescanFilterAux
    (name : String) (rssiLookup : String → Except String Int) :
    List (String × String) → List (String × String) →
    Except String (List (String × String))
  | [], found => Except.ok found
  | d :: rest, found =>
    match rssiLookup (createDevicePath name d.1) with
    | Except.error e => Except.error e
    | Except.ok r =>
      lescanFilterAux name rssiLookup rest
        (if r ≠ 0 then emplace found d.1 d.2 else found)

/-- DBusHciInterface::startDiscovery events: check discovering state under
the discovering lock; if already discovering do nothing, else set the
transport filter and issue the start-discovery call. -/
def startDiscoveryTrace (discovering : Bool) (transport : String) : List HciEvent :=
  HciEvent.getDiscovering discovering ::
    (if discovering then []
     else [HciEvent.setDiscoveryFilter transport, HciEvent.startDiscoveryCall])

/-- DBusHciInterface::stopDiscovery events: check discovering state under
the discovering lock; issue the stop-discovery call only when
discovering. -/
def stopDiscoveryTrace (discovering : Bool) : List HciEvent :=
  HciEvent.getDiscovering discovering ::
    (if discovering then [HciEvent.stopDiscoveryCall] else [])

/-- DBusHciInterface::lescan: seed from known devices, connect the
object-added signal, start discovery with the low-energy transport,
wait up to the timeout on the wait condition, then filter the
accumulated map by live signal strength. -/
def lescanRun
    (name : String) (timeoutUs : Int) (objects : List BluezObject)
    (lookupDevice : String → Option DeviceProps)
    (announced : List (Bool × Option DeviceProps))
    (rssiLookup : String → Except String Int)
    (discovering : Bool) :
    List HciEvent × Except String (List (String × String)) :=
  (HciEvent.signalConnect ::
     (startDiscoveryTrace discovering "le" ++ [HciEvent.discoveryWait timeoutUs]),
   lescanFilterAux name rssiLookup (lescanAccum name objects lookupDevice announced) [])

/-- DBusHciInterface::waitUntilPoweredChange loop body: fuel counts the
remaining attempts and i the index of the next poll of the live
powered state; each failed poll is followed by the bounded
condition wait (modelled as a sleep of CHANGE_POWER_DELAY ms). -/
def waitUntilPoweredChangeAux
    (name path : String) (poll : Nat → Bool) (target : Bool) :
    Nat → Nat → List HciEvent × Except String Unit
  | 0, _ => ([], Except.error ("failed to change power of interface" ++ name))
  | fuel + 1, i =>
    if poll i = target then
      ([HciEvent.getPowered path (poll i)], Except.ok ())
    else
      let rest := waitUntilPoweredChangeAux name path poll target fuel (i + 1)
      (HciEvent.getPowered path (poll i) :: HciEvent.powerSleep CHANGE_POWER_DELAY :: rest.1,
       rest.2)

/-- DBusHciInterface::waitUntilPoweredChange: up to CHANGE_POWER_ATTEMPTS
polls of the live powered state, returning as soon as it matches,
throwing a timeout naming the adapter once the budget is exhausted. -/
def waitUntilPoweredChange
    (name path : String) (poll : Nat → Bool) (target : Bool) :
    List HciEvent × Except String Unit :=
  waitUntilPoweredChangeAux name path poll target CHANGE_POWER_ATTEMPTS 0

/-- DBusHciInterface::up: retrieve the adapter (throwing on failure),
start discovery with the low-energy transport, read the live powered
state, return if already powered, else request power-on and wait. -/
def upRun
    (name adapterErr : String) (adapterOk : Bool)
    (discovering powered : Bool) (poll : Nat → Bool) :
    List HciEvent × Except String Unit :=
  let path := createAdapterPath name
  if adapterOk then
    let w := waitUntilPoweredChange name path poll true
    (HciEvent.retrieveAdapter path true ::
       (startDiscoveryTrace discovering "le" ++
         HciEvent.getPowered path powered ::
           (if powered then [] else HciEvent.setPowered path true :: w.1)),
     if powered then Except.ok () else w.2)
  else
    ([HciEvent.retrieveAdapter path false], Except.error adapterErr)

/-- DBusHciInterface::down: broadcast the wait condition first, then
retrieve the adapter (throwing on failure), read the live powered
state, return if already off, else request power-off and wait. -/
def downRun
    (name adapterErr : String) (adapterOk : Bool)
    (powered : Bool) (poll : Nat → Bool) :
    List HciEvent × Except String Unit :=
  let path := createAdapterPath name
  if adapterOk then
    let w := waitUntilPoweredChange name path poll false
    (HciEvent.broadcastWait :: HciEvent.retrieveAdapter path true ::
       HciEvent.getPowered path powered ::
         (if powered then HciEvent.setPowered path false :: w.1 else []),
     if powered then w.2 else Except.ok ())
  else
    ([HciEvent.broadcastWait, HciEvent.retrieveAdapter path false],
     Except.error adapterErr)

/-- Events of the DBusHciInterface destructor: stop discovery, quit the
main loop when it is running, join the event loop thread. -/
def destructorTrace (discovering loopRunning : Bool) : List HciEvent :=
  stopDiscoveryTrace discovering ++
    (if loopRunning then [HciEvent.mainLoopQuit] else []) ++ [HciEvent.threadJoin]

/-- The DBusHciConnection value returned by connect: adapter name, device
handle (its object path) and the timeout. -/
structure DBusHciConnection where
  adapterName : String
  devicePath : String
  timeoutMs : Int
  deriving DecidableEq

/-- DBusHciInterface::connect: retrieve the device object (throwing on
failure); when not already connected, set the per-call default timeout
on the proxy and issue the synchronous connect call, throwing any
reported error; return the connection object. -/
def connectRun
    (name addr : String) (timeoutMs : Int)
    (deviceOk : Bool) (deviceErr : String)
    (connected : Bool) (connectErr : Option String) :
    List HciEvent × Except String DBusHciConnection :=
  let path := createDevicePath name addr
  if deviceOk then
    if connected then
      ([HciEvent.retrieveDevice path true, HciEvent.getConnected path true],
       Except.ok ⟨name, path, timeoutMs⟩)
    else
      (HciEvent.retrieveDevice path true :: HciEvent.getConnected path false ::
         [HciEvent.setDefaultTimeout timeoutMs, HciEvent.connectCall],
       match connectErr with
       | some e => Except.error e
       | none => Except.ok ⟨name, path, timeoutMs⟩)
  else
    ([HciEvent.retrieveDevice path false], Except.error deviceErr)

/-- Registry state of DBusHciInterfaceManager: the name-keyed interface
map and a counter of constructed controller instances, used as the
identity of each constructed instance. -/
structure Registry where
  interfaces : List (String × Nat)
  nextId : Nat
  deriving DecidableEq

/-- std::map::find on the registry map. -/
def regFind (m : List (String × Nat)) (name : String) : Option Nat :=
  match m.find? (fun p => p.1 == name) with
  | some p => some p.2
  | none => none

/-- std::map::emplace on the registry map: inserts only when the key is
absent, otherwise leaves the map unchanged. -/
def regEmplace (m : List (String × Nat)) (k : String) (v : Nat) : List (String × Nat) :=
  if m.any (fun p => p.1 == k) then m else m ++ [(k, v)]

/-- The find step of DBusHciInterfaceManager::lookup. -/
def lookupFindStep (r : Registry) (name : String) : Option Nat :=
  regFind r.interfaces name

/-- The construct-and-emplace step of DBusHciInterfaceManager::lookup:
constructs a new controller instance (consuming the next identity)
and emplaces it; the constructed instance is returned even when the
emplace finds the key already present. -/
def lookupInsertStep (r : Registry) (name : String) : Nat × Registry :=
  (r.nextId,
   { interfaces := regEmplace r.interfaces name r.nextId, nextId := r.nextId + 1 })

/-- DBusHciInterfaceManager::lookup, executed atomically: return the
cached instance when present, else construct, cache and return. -/
def managerLookup (r : Registry) (name : String) : Nat × Registry :=
  match lookupFindStep r name with
  | some id => (id, r)
  | none => lookupInsertStep r name

/-- Two threads executing DBusHciInterfaceManager::lookup on the same
name, interleaved as: thread one find, thread two find, thread one
construct-and-emplace, thread two construct-and-emplace. The body of
lookup takes no lock, so this interleaving is possible. Returns the
value each thread returns and the final registry. -/
def lookupRace (r : Registry) (name : String) : Nat × Nat × Registry :=
  let f1 := lookupFindStep r name
  let f2 := lookupFindStep r name
  let s1 :=
    match f1 with
    | some id => (id, r)
    | none => lookupInsertStep r name
  let s2 :=
    match f2 with
    | some id => (id, s1.2)
    | none => lookupInsertStep s1.2 name
  (s1.1, s2.1, s2.2)

/-- Every event of the bounded power-change wait is a live power poll on
the given path or the bounded delay between polls. -/
theorem waitAux_events (name path : String) (poll : Nat → Bool) (target : Bool) :
    ∀ fuel i, ∀ e ∈ (waitUntilPoweredChangeAux name path poll target fuel i).1,
      (∃ b, e = HciEvent.getPowered path b) ∨ e = HciEvent.powerSleep CHANGE_POWER_DELAY := by
  intro fuel
  induction fuel with
  | zero =>
    intro i e he
    simp [waitUntilPoweredChangeAux] at he
  | succ k ih =>
    intro i e he
    by_cases h : poll i = target
    · simp [waitUntilPoweredChangeAux, h] at he
      exact Or.inl ⟨target, he⟩
    · simp [waitUntilPoweredChangeAux, h] at he
      rcases he with he | he | he
      · exact Or.inl ⟨poll i, he⟩
      · exact Or.inr he
      · exact ih (i + 1) e he

/-- Every event of waitUntilPoweredChange is a live power poll on the
given path or the bounded delay between polls. -/
theorem wait_events_shape (name path : String) (poll : Nat → Bool) (target : Bool) :
    ∀ e ∈ (waitUntilPoweredChange name path poll target).1,
      (∃ b, e = HciEvent.getPowered path b) ∨ e = HciEvent.powerSleep CHANGE_POWER_DELAY :=
  waitAux_events name path poll target CHANGE_POWER_ATTEMPTS 0

/-- Splitting a trace across an append for the discovering state. -/
theorem discoveringAfter_append (d : Bool) (tr₁ tr₂ : List HciEvent) :
    discoveringAfter d (tr₁ ++ tr₂) = discoveringAfter (discoveringAfter d tr₁) tr₂ := by
  induction tr₁ generalizing d with
  | nil => rfl
  | cons e rest ih => cases e <;> simp [discoveringAfter, ih]

/-- A trace without stop-discovery events leaves the discovering state on. -/
theorem discoveringAfter_no_stop (tr : List HciEvent)
    (h : HciEvent.stopDiscoveryCall ∉ tr) : discoveringAfter true tr = true := by
  induction tr with
  | nil => rfl
  | cons e rest ih =>
    simp only [List.mem_cons, not_or] at h
    cases e <;> first
    | exact absurd rfl h.1
    | simpa [discoveringAfter] using ih h.2

/-- C5: in every execution of down(), the broadcast that wakes threads
blocked in a discovery wait is the very first event, so it precedes
the inspection of the power state and any power-off request. -/
theorem down_broadcast_first (name adapterErr : String) (adapterOk powered : Bool)
    (poll : Nat → Bool) :
    ∃ rest,
      (downRun name adapterErr adapterOk powered poll).1 = HciEvent.broadcastWait :: rest
      ∧ HciEvent.broadcastWait ∉ rest
      ∧ ((HciEvent.getPowered (createAdapterPath name) powered ∈ rest) ↔ adapterOk = true)
      ∧ ((HciEvent.setPowered (createAdapterPath name) false ∈ rest)
          ↔ (adapterOk = true ∧ powered = true)) := by
  cases adapterOk with
  | false =>
    refine ⟨[HciEvent.retrieveAdapter (createAdapterPath name) false], rfl, ?_, ?_, ?_⟩ <;> simp
  | true =>
    cases powered with
    | false =>
      refine ⟨[HciEvent.retrieveAdapter (createAdapterPath name) true,
               HciEvent.getPowered (createAdapterPath name) false], rfl, ?_, ?_, ?_⟩ <;> simp
    | true =>
      refine ⟨HciEvent.retrieveAdapter (createAdapterPath name) true ::
               HciEvent.getPowered (createAdapterPath name) true ::
               HciEvent.setPowered (createAdapterPath name) false ::
               (waitUntilPoweredChange name (createAdapterPath name) poll false).1,
              rfl, ?_, ?_, ?_⟩
      · intro h
        simp only [List.mem_cons] at h
        rcases h with h | h | h | h
        · exact HciEvent.noConfusion h
        · exact HciEvent.noConfusion h
        · exact HciEvent.noConfusion h
        · rcases wait_events_shape name (createAdapterPath name) poll false _ h with ⟨b, hb⟩ | hb
          · exact HciEvent.noConfusion hb
          · exact HciEvent.noConfusion hb
      · simp
      · simp

/-- The bounded power-change wait never issues a stop-discovery call. -/
theorem wait_no_stop (name path : String) (poll : Nat → Bool) (target : Bool) :
    HciEvent.stopDiscoveryCall ∉ (waitUntilPoweredChange name path poll target).1 := by
  intro h
  rcases wait_events_shape name path poll target _ h with ⟨b, hb⟩ | hb
  · exact HciEvent.noConfusion hb
  · exact HciEvent.noConfusion hb

/-- C6: lescan never issues a stop-discovery request and leaves the
discovery request running on completion; among the modelled operations
only the destructor issues the stop-discovery request (up, down,
connect and lescan never do). -/
theorem lescan_never_stops_discovery :
    (∀ name timeoutUs objects lookupDevice announced rssiLookup discovering,
        HciEvent.stopDiscoveryCall ∉
            (lescanRun name timeoutUs objects lookupDevice announced rssiLookup discovering).1
          ∧ discoveringAfter discovering
              (lescanRun name timeoutUs objects lookupDevice announced rssiLookup discovering).1
              = true)
    ∧ (∀ name adapterErr adapterOk discovering powered poll,
        HciEvent.stopDiscoveryCall ∉ (upRun name adapterErr adapterOk discovering powered poll).1)
    ∧ (∀ name adapterErr adapterOk powered poll,
        HciEvent.stopDiscoveryCall ∉ (downRun name adapterErr adapterOk powered poll).1)
    ∧ (∀ name addr timeoutMs deviceOk deviceErr connected connectErr,
        HciEvent.stopDiscoveryCall ∉
          (connectRun name addr timeoutMs deviceOk deviceErr connected connectErr).1)
    ∧ (∀ discovering loopRunning,
        (HciEvent.stopDiscoveryCall ∈ destructorTrace discovering loopRunning)
          ↔ discovering = true) := by
  refine ⟨?_, ?_, ?_, ?_, ?_⟩
  · intro name timeoutUs objects lookupDevice announced rssiLookup discovering
    constructor
    · cases discovering <;> simp [lescanRun, startDiscoveryTrace]
    · cases discovering <;> simp [lescanRun, startDiscoveryTrace, discoveringAfter]
  · intro name adapterErr adapterOk discovering powered poll
    cases adapterOk with
    | false => simp [upRun]
    | true =>
      cases powered with
      | true => cases discovering <;> simp [upRun, startDiscoveryTrace]
      | false =>
        cases discovering <;>
          simpa [upRun, startDiscoveryTrace] using
            wait_no_stop name (createAdapterPath name) poll true
  · intro name adapterErr adapterOk powered poll
    cases adapterOk with
    | false => simp [downRun]
    | true =>
      cases powered with
      | false => simp [downRun]
      | true =>
        simpa [downRun] using wait_no_stop name (createAdapterPath name) poll false
  · intro name addr timeoutMs deviceOk deviceErr connected connectErr
    cases deviceOk with
    | false => simp [connectRun]
    | true => cases connected <;> simp [connectRun]
  · intro discovering loopRunning
    cases discovering <;> cases loopRunning <;> simp [destructorTrace, stopDiscoveryTrace]

/-- C8: up() on an already powered adapter re-reads the live power state
and returns without ever invoking the set-power primitive, so a second
up() right after a successful one is a no-op with respect to power. -/
theorem up_already_powered_no_set (name adapterErr : String) (discovering : Bool)
    (poll : Nat → Bool) :
    (∀ p v, HciEvent.setPowered p v ∉ (upRun name adapterErr true discovering true poll).1)
    ∧ HciEvent.getPowered (createAdapterPath name) true
        ∈ (upRun name adapterErr true discovering true poll).1
    ∧ (upRun name adapterErr true discovering true poll).2 = Except.ok () := by
  refine ⟨?_, ?_, ?_⟩
  · intro p v; cases discovering <;> simp [upRun, startDiscoveryTrace]
  · cases discovering <;> simp [upRun, startDiscoveryTrace]
  · cases discovering <;> simp [upRun]

/-- C9: connect() on an already connected device issues no connect call
and does not set the per-call default timeout on the service handle,
and still returns the connection bound to the adapter name, the device
handle and the timeout. -/
theorem connect_already_connected (name addr deviceErr : String) (timeoutMs : Int)
    (connectErr : Option String) :
    HciEvent.connectCall ∉ (connectRun name addr timeoutMs true deviceErr true connectErr).1
    ∧ (∀ t, HciEvent.setDefaultTimeout t
          ∉ (connectRun name addr timeoutMs true deviceErr true connectErr).1)
    ∧ (connectRun name addr timeoutMs true deviceErr true connectErr).2
        = Except.ok ⟨name, createDevicePath name addr, timeoutMs⟩ := by
  refine ⟨by simp [connectRun], fun t => by simp [connectRun], by simp [connectRun]⟩

/-- C10: every execution of up() that reaches the power-state read has
already run the start-discovery step with the low-energy transport:
the start-discovery events come strictly before the power read, the
low-energy filter is set exactly when discovery was not yet running,
and discovery is running when up() returns, even on the
already-powered early-return path. -/
theorem up_starts_discovery_before_power_read (name adapterErr : String)
    (discovering powered : Bool) (poll : Nat → Bool) :
    ∃ rest,
      (upRun name adapterErr true discovering powered poll).1
        = HciEvent.retrieveAdapter (createAdapterPath name) true ::
            (startDiscoveryTrace discovering "le" ++
              HciEvent.getPowered (createAdapterPath name) powered :: rest)
      ∧ (∀ p b, HciEvent.getPowered p b ∉ startDiscoveryTrace discovering "le")
      ∧ ((HciEvent.setDiscoveryFilter "le"
            ∈ (upRun name adapterErr true discovering powered poll).1)
          ↔ discovering = false)
      ∧ discoveringAfter discovering (upRun name adapterErr true discovering powered poll).1
          = true := by
  refine ⟨if powered then []
          else HciEvent.setPowered (createAdapterPath name) true ::
            (waitUntilPoweredChange name (createAdapterPath name) poll true).1,
          ?_, ?_, ?_, ?_⟩
  · cases powered <;> rfl
  · intro p b; cases discovering <;> simp [startDiscoveryTrace]
  · cases discovering with
    | false => cases powered <;> simp [upRun, startDiscoveryTrace]
    | true =>
      cases powered with
      | true => simp [upRun, startDiscoveryTrace]
      | false =>
        simp [upRun, startDiscoveryTrace]
        intro h
        rcases wait_events_shape name (createAdapterPath name) poll true _ h with ⟨b, hb⟩ | hb
        · exact HciEvent.noConfusion hb
        · exact HciEvent.noConfusion hb
  · cases discovering with
    | false =>
      cases powered with
      | true => simp [upRun, startDiscoveryTrace, discoveringAfter]
      | false =>
        simpa [upRun, startDiscoveryTrace, discoveringAfter] using
          discoveringAfter_no_stop _ (wait_no_stop name (createAdapterPath name) poll true)
    | true =>
      cases powered with
      | true => simp [upRun, startDiscoveryTrace, discoveringAfter]
      | false =>
        simpa [upRun, startDiscoveryTrace, discoveringAfter] using
          discoveringAfter_no_stop _ (wait_no_stop name (createAdapterPath name) poll true)

/-- C2 (code bug): the body of DBusHciInterfaceManager::lookup takes no
lock around its check-then-insert sequence, so two threads that both
run the find step before either runs the construct-and-emplace step,
starting from a registry without the name, construct two controller
instances and return distinct instances; only the first is cached. -/
theorem managerLookup_race_two_instances :
    (lookupRace ⟨[], 0⟩ "hci0").1 = 0
    ∧ (lookupRace ⟨[], 0⟩ "hci0").2.1 = 1
    ∧ (lookupRace ⟨[], 0⟩ "hci0").2.1 ≠ (lookupRace ⟨[], 0⟩ "hci0").1
    ∧ (lookupRace ⟨[], 0⟩ "hci0").2.2.nextId = 2
    ∧ regFind (lookupRace ⟨[], 0⟩ "hci0").2.2.interfaces "hci0" = some 0 := by
  refine ⟨rfl, rfl, by decide, rfl, rfl⟩

/-- C1 counterexample: a per-device lookup failure during the post-scan
signal-strength filtering pass of lescan is not caught: it propagates
to the lescan caller and aborts the session, here on a session whose
accumulation map holds one device whose filtering-time lookup fails. -/
theorem lescan_filter_lookup_failure_propagates :
    (lescanRun "hci0" 5000000
        [⟨"/org/bluez/hci0/dev_AA_AA_AA_AA_AA_AA", ["org.bluez.Device1"]⟩]
        (fun _ => some ⟨"AA:AA:AA:AA:AA:AA", none⟩) []
        (fun _ => Except.error "device object vanished") false).2
      = Except.error "device object vanished" := rfl

/-- C7 counterexample: with adapter name hci0, a registry object whose
path lies under the distinct adapter hci00 passes the source filter
(a substring test for the slash-name fragment) and is recorded by the
pre-scan enumeration, although its path does not lie under the hci0
adapter path, refuting the path-prefix reading of the filter. -/
theorem processKnownDevices_substring_not_under_path :
    processKnownDevices "hci0"
        [⟨"/org/bluez/hci00/dev_AA_AA_AA_AA_AA_AA", ["org.bluez.Device1"]⟩]
        (fun _ => some ⟨"AA:AA:AA:AA:AA:AA", none⟩) []
      = [("AA:AA:AA:AA:AA:AA", "unknown")]
    ∧ underAdapterPath "hci0" "/org/bluez/hci00/dev_AA_AA_AA_AA_AA_AA" = false :=
  ⟨rfl, rfl⟩

/-- If some poll within the remaining budget observes the target, the
wait loop returns ok. -/
theorem waitAux_ok (name path : String) (poll : Nat → Bool) (target : Bool) :
    ∀ fuel i, (∃ k, k < fuel ∧ poll (i + k) = target) →
      (waitUntilPoweredChangeAux name path poll target fuel i).2 = Except.ok () := by
  intro fuel
  induction fuel with
  | zero =>
    rintro i ⟨k, hk, _⟩
    exact absurd hk (Nat.not_lt_zero k)
  | succ n ih =>
    rintro i ⟨k, hk, hpoll⟩
    by_cases h : poll i = target
    · simp [waitUntilPoweredChangeAux, h]
    · have hkpos : k ≠ 0 := by
        intro h0
        subst h0
        exact h (by simpa using hpoll)
      obtain ⟨m, rfl⟩ := Nat.exists_eq_succ_of_ne_zero hkpos
      simp only [waitUntilPoweredChangeAux, h, if_false, if_neg h]
      exact ih (i + 1) ⟨m, Nat.lt_of_succ_lt_succ hk,
        by have heq : i + 1 + m = i + (m + 1) := by omega
           rw [heq]; exact hpoll⟩

/-- If the first poll of the remaining budget observing the target has
index k, the wait loop returns ok after exactly k + 1 polls. -/
theorem waitAux_ok_count (name path : String) (poll : Nat → Bool) (target : Bool) :
    ∀ fuel i k, k < fuel → poll (i + k) = target → (∀ j, j < k → poll (i + j) ≠ target) →
      (waitUntilPoweredChangeAux name path poll target fuel i).2 = Except.ok ()
      ∧ countPolls (waitUntilPoweredChangeAux name path poll target fuel i).1 = k + 1 := by
  intro fuel
  induction fuel with
  | zero =>
    intro i k hk
    exact absurd hk (Nat.not_lt_zero k)
  | succ n ih =>
    intro i k hk hpoll hmin
    by_cases h : poll i = target
    · have hk0 : k = 0 := by
        by_contra hne
        exact hmin 0 (Nat.pos_of_ne_zero hne) (by simpa using h)
      subst hk0
      exact ⟨by simp [waitUntilPoweredChangeAux, h],
             by simp [waitUntilPoweredChangeAux, h, countPolls, isPollEvent]⟩
    · have hkpos : k ≠ 0 := by
        intro h0
        subst h0
        exact h (by simpa using hpoll)
      obtain ⟨m, rfl⟩ := Nat.exists_eq_succ_of_ne_zero hkpos
      have ih' := ih (i + 1) m (Nat.lt_of_succ_lt_succ hk)
        (by have heq : i + 1 + m = i + (m + 1) := by omega
            rw [heq]; exact hpoll)
        (fun j hj => by
          have heq : i + 1 + j = i + (j + 1) := by omega
          rw [heq]
          exact hmin (j + 1) (Nat.succ_lt_succ hj))
      constructor
      · simp only [waitUntilPoweredChangeAux, h, if_neg h]
        exact ih'.1
      · have h2 := ih'.2
        simp [waitUntilPoweredChangeAux, h, countPolls, List.countP_cons, isPollEvent] at h2 ⊢
        omega

/-- If every poll in the remaining budget misses the target, the wait
loop raises the timeout error naming the adapter after exactly budget
many polls. -/
theorem waitAux_err (name path : String) (poll : Nat → Bool) (target : Bool) :
    ∀ fuel i, (∀ j, j < fuel → poll (i + j) ≠ target) →
      (waitUntilPoweredChangeAux name path poll target fuel i).2
          = Except.error ("failed to change power of interface" ++ name)
      ∧ countPolls (waitUntilPoweredChangeAux name path poll target fuel i).1 = fuel := by
  intro fuel
  induction fuel with
  | zero => exact fun i _ => ⟨rfl, rfl⟩
  | succ n ih =>
    intro i hall
    have h : poll i ≠ target := by simpa using hall 0 (Nat.succ_pos n)
    have ih' := ih (i + 1) (fun j hj => by
      have heq : i + 1 + j = i + (j + 1) := by omega
      rw [heq]
      exact hall (j + 1) (Nat.succ_lt_succ hj))
    constructor
    · simp only [waitUntilPoweredChangeAux, h, if_neg h]
      exact ih'.1
    · have h2 := ih'.2
      simp [waitUntilPoweredChangeAux, h, countPolls, List.countP_cons, isPollEvent] at h2 ⊢
      omega

/-- C4: the bounded power-change wait of up() and down() polls the live
power state up to exactly CHANGE_POWER_ATTEMPTS = 5 times, the polls
separated by the CHANGE_POWER_DELAY = 200 ms delay, returns as soon
as a poll observes the requested state (a first match at poll index k
means exactly k + 1 polls are performed), and raises the timeout
error naming the adapter exactly when all 5 polls miss the requested
state. -/
theorem waitUntilPoweredChange_spec (name path : String) (poll : Nat → Bool) (target : Bool) :
    (∀ k, k < CHANGE_POWER_ATTEMPTS → poll k = target → (∀ j, j < k → poll j ≠ target) →
        (waitUntilPoweredChange name path poll target).2 = Except.ok ()
        ∧ countPolls (waitUntilPoweredChange name path poll target).1 = k + 1)
    ∧ ((waitUntilPoweredChange name path poll target).2
          = Except.error ("failed to change power of interface" ++ name)
        ↔ (∀ i, i < CHANGE_POWER_ATTEMPTS → poll i ≠ target))
    ∧ ((∀ i, i < CHANGE_POWER_ATTEMPTS → poll i ≠ target) →
        countPolls (waitUntilPoweredChange name path poll target).1 = CHANGE_POWER_ATTEMPTS)
    ∧ (∀ e ∈ (waitUntilPoweredChange name path poll target).1,
        (∃ b, e = HciEvent.getPowered path b) ∨ e = HciEvent.powerSleep CHANGE_POWER_DELAY) := by
  refine ⟨?_, ⟨?_, ?_⟩, ?_, wait_events_shape name path poll target⟩
  · intro k hk hpoll hmin
    exact waitAux_ok_count name path poll target CHANGE_POWER_ATTEMPTS 0 k hk
      (by simpa using hpoll) (fun j hj => by simpa using hmin j hj)
  · intro herr
    by_contra hnot
    push_neg at hnot
    obtain ⟨i, hi, hpoll⟩ := hnot
    have hok := waitAux_ok name path poll target CHANGE_POWER_ATTEMPTS 0
      ⟨i, hi, by simpa using hpoll⟩
    rw [waitUntilPoweredChange] at herr
    rw [hok] at herr
    exact Except.noConfusion herr
  · intro hall
    exact (waitAux_err name path poll target CHANGE_POWER_ATTEMPTS 0
      (fun j hj => by simpa using hall j hj)).1
  · intro hall
    exact (waitAux_err name path poll target CHANGE_POWER_ATTEMPTS 0
      (fun j hj => by simpa using hall j hj)).2

/-- Witness for the bounded wait spec: a live state that first reports
the target on the third poll makes the wait succeed after exactly
three polls. -/
theorem waitUntilPoweredChange_spec_witness :
    (waitUntilPoweredChange "hci0" "/org/bluez/hci0" (fun i => decide (2 ≤ i)) true).2
        = Except.ok ()
    ∧ countPolls
        (waitUntilPoweredChange "hci0" "/org/bluez/hci0" (fun i => decide (2 ≤ i)) true).1
        = 3 :=
  (waitUntilPoweredChange_spec "hci0" "/org/bluez/hci0" (fun i => decide (2 ≤ i)) true).1
    2 (by decide) (by decide) (by decide)

/-- Key containment of the address map matches key membership. -/
theorem mapContainsKey_iff (m : List (String × String)) (k : String) :
    mapContainsKey m k = true ↔ k ∈ m.map Prod.fst := by
  rw [mapContainsKey, List.any_eq_true]
  constructor
  · rintro ⟨p, hp, hb⟩
    exact List.mem_map.mpr ⟨p, hp, beq_iff_eq.mp hb⟩
  · intro hm
    rcases List.mem_map.mp hm with ⟨p, hp, rfl⟩
    exact ⟨p, hp, beq_iff_eq.mpr rfl⟩

/-- Emplacing a fresh key appends the pair. -/
theorem emplace_not_mem (m : List (String × String)) (k v : String)
    (h : k ∉ m.map Prod.fst) : emplace m k v = m ++ [(k, v)] := by
  rw [emplace, if_neg]
  intro hc
  exact h ((mapContainsKey_iff m k).mp hc)

/-- Emplace preserves distinctness of the keys of the address map. -/
theorem emplace_keys_nodup (m : List (String × String)) (k v : String)
    (h : (m.map Prod.fst).Nodup) : ((emplace m k v).map Prod.fst).Nodup := by
  by_cases hc : mapContainsKey m k = true
  · simpa [emplace, hc] using h
  · have hk : k ∉ m.map Prod.fst := fun hm => hc ((mapContainsKey_iff m k).mpr hm)
    rw [emplace, if_neg (by simpa using hc)]
    simp only [List.map_append, List.map_cons, List.map_nil]
    rw [List.nodup_append]
    exact ⟨h, List.nodup_singleton k, by
      intro x hx hx'
      rcases List.mem_singleton.mp hx' with rfl
      exact hk hx⟩

/-- The pre-scan enumeration keeps the keys of the address map distinct. -/
theorem processKnownDevices_keys_nodup (name : String) (objects : List BluezObject)
    (lookupDevice : String → Option DeviceProps) (init : List (String × String))
    (h : (init.map Prod.fst).Nodup) :
    ((processKnownDevices name objects lookupDevice init).map Prod.fst).Nodup := by
  rw [processKnownDevices]
  generalize retrievePathsOfBluezObjects objects (lescanPathFilter name) "org.bluez.Device1"
    = paths
  induction paths generalizing init with
  | nil => simpa
  | cons p rest ih =>
    simp only [List.foldl_cons]
    apply ih
    cases hl : lookupDevice p with
    | none => simpa using h
    | some d => exact emplace_keys_nodup _ _ _ h

/-- The notification handler keeps the keys of the address map distinct. -/
theorem onDBusObjectAdded_keys_nodup (hasIntf : Bool) (res : Option DeviceProps)
    (found : List (String × String)) (h : (found.map Prod.fst).Nodup) :
    ((onDBusObjectAdded hasIntf res found).map Prod.fst).Nodup := by
  cases hasIntf with
  | false => simpa [onDBusObjectAdded]
  | true =>
    cases res with
    | none => simpa [onDBusObjectAdded]
    | some d =>
      simp only [onDBusObjectAdded]
      exact emplace_keys_nodup _ _ _ h

/-- The accumulation map of a lescan session has distinct keys. -/
theorem lescanAccum_keys_nodup (name : String) (objects : List BluezObject)
    (lookupDevice : String → Option DeviceProps)
    (announced : List (Bool × Option DeviceProps)) :
    ((lescanAccum name objects lookupDevice announced).map Prod.fst).Nodup := by
  have h0 := processKnownDevices_keys_nodup name objects lookupDevice [] (by simp)
  rw [lescanAccum]
  revert h0
  generalize processKnownDevices name objects lookupDevice [] = init
  intro h0
  induction announced generalizing init with
  | nil => simpa
  | cons a rest ih =>
    simp only [List.foldl_cons]
    exact ih _ (onDBusObjectAdded_keys_nodup a.1 a.2 init h0)

/-- With every signal-strength query answering, the filtering loop keeps
exactly the entries with nonzero strength, in order, appended to the
accumulator, provided all keys are distinct. -/
theorem lescanFilterAux_total (name : String) (rssiOf : String → Int) :
    ∀ (l found : List (String × String)),
      ((found.map Prod.fst ++ l.map Prod.fst).Nodup) →
      lescanFilterAux name (fun p => Except.ok (rssiOf p)) l found
        = Except.ok (found ++
            l.filter (fun d => decide (rssiOf (createDevicePath name d.1) ≠ 0))) := by
  intro l
  induction l with
  | nil =>
    intro found _
    simp [lescanFilterAux]
  | cons d rest ih =>
    intro found hnodup
    have hd : d.1 ∉ found.map Prod.fst := by
      intro hmem
      rcases List.nodup_append.mp (by simpa using hnodup) with ⟨_, _, hdisj⟩
      exact hdisj hmem (List.mem_cons_self _ _)
    simp only [lescanFilterAux]
    by_cases h : rssiOf (createDevicePath name d.1) ≠ 0
    · rw [if_pos h, emplace_not_mem found d.1 d.2 hd]
      rw [ih (found ++ [d]) (by simpa using hnodup)]
      simp [List.filter_cons, h]
    · rw [if_neg h]
      have hsub : (found.map Prod.fst ++ rest.map Prod.fst).Nodup := by
        refine List.Nodup.sublist ?_ hnodup
        simp only [List.map_cons]
        exact List.Sublist.append_left ((List.Sublist.refl _).cons d.1) _
      rw [ih found hsub]
      simp [List.filter_cons, h]

/-- C3: when every filtering-time signal-strength query answers, lescan
returns a map that contains an accumulated address-name pair exactly
when the live signal-strength query for that address is nonzero; an
accumulated address whose query answers zero never appears in the
returned map. -/
theorem lescan_rssi_zero_filter (name : String) (timeoutUs : Int)
    (objects : List BluezObject) (lookupDevice : String → Option DeviceProps)
    (announced : List (Bool × Option DeviceProps)) (discovering : Bool)
    (rssiOf : String → Int) :
    ∃ found,
      (lescanRun name timeoutUs objects lookupDevice announced
          (fun p => Except.ok (rssiOf p)) discovering).2 = Except.ok found
      ∧ ∀ a n, ((a, n) ∈ found ↔
          ((a, n) ∈ lescanAccum name objects lookupDevice announced
            ∧ rssiOf (createDevicePath name a) ≠ 0)) := by
  have hnodup := lescanAccum_keys_nodup name objects lookupDevice announced
  refine ⟨(lescanAccum name objects lookupDevice announced).filter
      (fun d => decide (rssiOf (createDevicePath name d.1) ≠ 0)), ?_, ?_⟩
  · have h := lescanFilterAux_total name rssiOf
      (lescanAccum name objects lookupDevice announced) [] (by simpa using hnodup)
    simpa [lescanRun] using h
  · intro a n
    simp [List.mem_filter]

/-- Folding emplace over the pairs produced from paths with globally
distinct keys appends those pairs in order. -/
theorem foldl_emplace_map_fresh (g : String → String × String) :
    ∀ (paths : List String) (acc : List (String × String)),
      ((acc.map Prod.fst ++ paths.map (fun p => (g p).1)).Nodup) →
      List.foldl (fun m p => emplace m (g p).1 (g p).2) acc paths
        = acc ++ paths.map g := by
  intro paths
  induction paths with
  | nil =>
    intro acc _
    simp
  | cons p rest ih =>
    intro acc h
    have hp : (g p).1 ∉ acc.map Prod.fst := by
      intro hmem
      rcases List.nodup_append.mp (by simpa using h) with ⟨_, _, hdisj⟩
      exact hdisj hmem (List.mem_cons_self _ _)
    simp only [List.foldl_cons]
    rw [emplace_not_mem acc (g p).1 (g p).2 hp]
    rw [ih (acc ++ [g p]) (by simpa using h)]
    simp

/-- Membership in the kept paths of the registry enumeration. -/
theorem mem_retrievePaths (objects : List BluezObject) (pf : String → Bool)
    (objectFilter : String) (p : String) :
    p ∈ retrievePathsOfBluezObjects objects pf objectFilter
      ↔ ∃ o, o ∈ objects ∧ pf o.path = false
          ∧ o.interfaces.contains objectFilter = true ∧ o.path = p := by
  rw [retrievePathsOfBluezObjects, List.mem_filterMap]
  constructor
  · rintro ⟨o, ho, hf⟩
    by_cases h1 : pf o.path = true
    · rw [if_pos h1] at hf
      exact Option.noConfusion hf
    · rw [if_neg h1] at hf
      by_cases h2 : o.interfaces.contains objectFilter = true
      · rw [if_pos h2] at hf
        exact ⟨o, ho, by simpa using h1, h2, Option.some.inj hf⟩
      · rw [if_neg h2] at hf
        exact Option.noConfusion hf
  · rintro ⟨o, ho, h1, h2, rfl⟩
    refine ⟨o, ho, ?_⟩
    rw [if_neg (by simp [h1]), if_pos h2]

/-- The path filter keeps a path exactly when the slash-name fragment is
a substring of it. -/
theorem lescanPathFilter_eq_false (name path : String) :
    lescanPathFilter name path = false ↔ containsSubstr path ("/" ++ name) = true := by
  cases hc : containsSubstr path ("/" ++ name) <;> simp [lescanPathFilter, hc]

/-- With every per-device lookup succeeding and the looked-up addresses
of the kept paths distinct, the pre-scan enumeration records exactly
the address-name pair of each kept path, in order. -/
theorem processKnownDevices_total (name : String) (objects : List BluezObject)
    (props : String → DeviceProps)
    (hnodup : ((retrievePathsOfBluezObjects objects (lescanPathFilter name)
        "org.bluez.Device1").map (fun p => (props p).address)).Nodup) :
    processKnownDevices name objects (fun p => some (props p)) []
      = (retrievePathsOfBluezObjects objects (lescanPathFilter name)
          "org.bluez.Device1").map
          (fun p => ((props p).address, ((props p).name).getD "unknown")) := by
  have h := foldl_emplace_map_fresh
    (fun p => ((props p).address, ((props p).name).getD "unknown"))
    (retrievePathsOfBluezObjects objects (lescanPathFilter name) "org.bluez.Device1")
    [] (by simpa using hnodup)
  exact h.trans (by simp)

/-- C7 amended: with every per-device lookup succeeding and the looked-up
addresses distinct, an address-name pair is recorded by the pre-scan
enumeration exactly when some registry object exposes the device
interface, contains the slash-name fragment of this adapter as a
substring of its path (the source test; weaker than a path-prefix
check), and resolves to that address and name. -/
theorem processKnownDevices_filter_spec (name : String) (objects : List BluezObject)
    (props : String → DeviceProps)
    (hnodup : ((retrievePathsOfBluezObjects objects (lescanPathFilter name)
        "org.bluez.Device1").map (fun p => (props p).address)).Nodup) :
    ∀ a n, ((a, n) ∈ processKnownDevices name objects (fun p => some (props p)) []
      ↔ ∃ o, o ∈ objects ∧ o.interfaces.contains "org.bluez.Device1" = true
          ∧ containsSubstr o.path ("/" ++ name) = true
          ∧ (props o.path).address = a ∧ ((props o.path).name).getD "unknown" = n) := by
  intro a n
  rw [processKnownDevices_total name objects props hnodup, List.mem_map]
  constructor
  · rintro ⟨p, hp, heq⟩
    rcases (mem_retrievePaths objects (lescanPathFilter name) "org.bluez.Device1" p).mp hp
      with ⟨o, ho, h1, h2, rfl⟩
    rw [Prod.mk.injEq] at heq
    exact ⟨o, ho, h2, (lescanPathFilter_eq_false name o.path).mp h1, heq.1, heq.2⟩
  · rintro ⟨o, ho, h2, h1, ha, hn⟩
    refine ⟨o.path, (mem_retrievePaths objects (lescanPathFilter name)
      "org.bluez.Device1" o.path).mpr
        ⟨o, ho, (lescanPathFilter_eq_false name o.path).mpr h1, h2, rfl⟩, ?_⟩
    rw [ha, hn]

/-- Witness for the amended enumeration filter: a registry object whose
path holds the slash-name fragment and exposes the device interface is
recorded under its looked-up address and the sentinel name. -/
theorem processKnownDevices_filter_spec_witness :
    ("AA:AA:AA:AA:AA:AA", "unknown") ∈ processKnownDevices "hci0"
        [⟨"/org/bluez/hci0/dev_AA_AA_AA_AA_AA_AA", ["org.bluez.Device1"]⟩]
        (fun _ => some ⟨"AA:AA:AA:AA:AA:AA", none⟩) [] :=
  (processKnownDevices_filter_spec "hci0"
      [⟨"/org/bluez/hci0/dev_AA_AA_AA_AA_AA_AA", ["org.bluez.Device1"]⟩]
      (fun _ => ⟨"AA:AA:AA:AA:AA:AA", none⟩) (by decide)
      "AA:AA:AA:AA:AA:AA" "unknown").mpr
    ⟨⟨"/org/bluez/hci0/dev_AA_AA_AA_AA_AA_AA", ["org.bluez.Device1"]⟩,
      List.mem_singleton.mpr rfl, by decide, by decide, rfl, rfl⟩

/-- Restricting the registry to objects whose property on the path holds
commutes with the enumeration of kept paths. -/
theorem retrievePaths_filter (objects : List BluezObject) (pf : String → Bool)
    (objectFilter : String) (q : String → Bool) :
    retrievePathsOfBluezObjects (objects.filter (fun o => q o.path)) pf objectFilter
      = (retrievePathsOfBluezObjects objects pf objectFilter).filter q := by
  induction objects with
  | nil => rfl
  | cons o rest ih =>
    simp only [retrievePathsOfBluezObjects] at ih ⊢
    by_cases hq : q o.path = true <;>
      by_cases h1 : pf o.path = true <;>
      by_cases h2 : objectFilter ∈ o.interfaces <;>
      simpa [List.filter_cons, List.filterMap_cons, hq, h1, h2] using ih

/-- Folding the lookup-then-emplace step skips exactly the paths whose
lookup fails. -/
theorem foldl_skip_none (lookupDevice : String → Option DeviceProps) :
    ∀ (paths : List String) (acc : List (String × String)),
      paths.foldl (fun m p =>
          match lookupDevice p with
          | none => m
          | some d => emplace m d.address (d.name.getD "unknown")) acc
        = (paths.filter (fun p => (lookupDevice p).isSome)).foldl (fun m p =>
            match lookupDevice p with
            | none => m
            | some d => emplace m d.address (d.name.getD "unknown")) acc := by
  intro paths
  induction paths with
  | nil => intro acc; rfl
  | cons p rest ih =>
    intro acc
    cases hl : lookupDevice p with
    | none => simp [List.foldl_cons, List.filter_cons, hl, ih]
    | some d => simp [List.foldl_cons, List.filter_cons, hl, ih]

/-- The pre-scan enumeration gives the same map whether or not the
objects with failing lookups are present: each failure is skipped. -/
theorem processKnownDevices_skips_failures (name : String) (objects : List BluezObject)
    (lookupDevice : String → Option DeviceProps) (init : List (String × String)) :
    processKnownDevices name objects lookupDevice init
      = processKnownDevices name
          (objects.filter (fun o => (lookupDevice o.path).isSome)) lookupDevice init := by
  show List.foldl _ init _ = List.foldl _ init _
  rw [retrievePaths_filter objects (lescanPathFilter name) "org.bluez.Device1"
    (fun p => (lookupDevice p).isSome)]
  exact foldl_skip_none lookupDevice _ init

/-- An entry of the accumulated map whose filtering-time lookup fails
makes the filtering loop abort with an error. -/
theorem lescanFilterAux_error (name : String) (rssiLookup : String → Except String Int) :
    ∀ (l found : List (String × String)),
      (∃ d, d ∈ l ∧ ∃ e, rssiLookup (createDevicePath name d.1) = Except.error e) →
      ∃ e, lescanFilterAux name rssiLookup l found = Except.error e := by
  intro l
  induction l with
  | nil =>
    rintro found ⟨d, hd, _⟩
    exact absurd hd (List.not_mem_nil d)
  | cons d0 rest ih =>
    rintro found ⟨d, hd, e, he⟩
    cases hl : rssiLookup (createDevicePath name d0.1) with
    | error e0 =>
      refine ⟨e0, ?_⟩
      simp only [lescanFilterAux, hl]
    | ok r =>
      rcases List.mem_cons.mp hd with rfl | hmem
      · rw [hl] at he
        exact Except.noConfusion he
      · obtain ⟨e1, he1⟩ :=
          ih (if r ≠ 0 then emplace found d0.1 d0.2 else found) ⟨d, hmem, e, he⟩
        exact ⟨e1, by simp only [lescanFilterAux, hl]; exact he1⟩

/-- C1 amended: per-device lookup failures during the pre-scan
enumeration and during notification handling are caught and skipped,
leaving the rest of the session unaffected; but a per-device lookup
failure during the post-scan signal-strength filtering pass of lescan
is not caught: it propagates to the lescan caller and aborts the
session. -/
theorem lescan_lookup_failure_handling :
    (∀ (name : String) (objects : List BluezObject)
        (lookupDevice : String → Option DeviceProps) (init : List (String × String)),
        processKnownDevices name objects lookupDevice init
          = processKnownDevices name
              (objects.filter (fun o => (lookupDevice o.path).isSome)) lookupDevice init)
    ∧ (∀ (hasIntf : Bool) (found : List (String × String)),
        onDBusObjectAdded hasIntf none found = found)
    ∧ (∀ (name : String) (timeoutUs : Int) (objects : List BluezObject)
        (lookupDevice : String → Option DeviceProps)
        (announced : List (Bool × Option DeviceProps))
        (rssiLookup : String → Except String Int) (discovering : Bool),
        (∃ d, d ∈ lescanAccum name objects lookupDevice announced
            ∧ ∃ e, rssiLookup (createDevicePath name d.1) = Except.error e) →
        ∃ e, (lescanRun name timeoutUs objects lookupDevice announced rssiLookup
            discovering).2 = Except.error e) := by
  refine ⟨processKnownDevices_skips_failures, ?_, ?_⟩
  · intro hasIntf found
    cases hasIntf <;> rfl
  · intro name timeoutUs objects lookupDevice announced rssiLookup discovering h
    exact lescanFilterAux_error name rssiLookup _ [] h

/-- Witness for the lookup-failure handling: a one-device session whose
filtering-time lookup fails makes lescan return an error. -/
theorem lescan_lookup_failure_handling_witness :
    ∃ e, (lescanRun "hci0" 1000000
        [⟨"/org/bluez/hci0/dev_BB_BB_BB_BB_BB_BB", ["org.bluez.Device1"]⟩]
        (fun _ => some ⟨"BB:BB:BB:BB:BB:BB", none⟩) []
        (fun _ => Except.error "gone") false).2 = Except.error e :=
  lescan_lookup_failure_handling.2.2 "hci0" 1000000
    [⟨"/org/bluez/hci0/dev_BB_BB_BB_BB_BB_BB", ["org.bluez.Device1"]⟩]
    (fun _ => some ⟨"BB:BB:BB:BB:BB:BB", none⟩) []
    (fun _ => Except.error "gone") false
    ⟨("BB:BB:BB:BB:BB:BB", "unknown"), by decide, "gone", rfl⟩

